import Mathlib

/-
Verification of the vibranium deployment tracker core
(src/deployment/tracker.rs) and the CLI error reporting layer
(cli/src/error.rs), as a shallow embedding in Lean 4.
-/

/-! ## SHA3-256 (the Sha3_256 type of the sha3 crate), over byte lists as Nat -/

/-- Rotate a 64-bit lane left by `n` bits. -/
def rotl64 (x n : Nat) : Nat :=
  ((x <<< n) ||| (x >>> (64 - n))) % 2 ^ 64

/-- Keccak theta step over a 25-lane state (lane `x + 5*y` at index `x + 5*y`). -/
def theta (A : List Nat) : List Nat :=
  let C := (List.range 5).map (fun x =>
    ((((A.getD x 0) ^^^ (A.getD (x + 5) 0)) ^^^ (A.getD (x + 10) 0)) ^^^
      (A.getD (x + 15) 0)) ^^^ (A.getD (x + 20) 0))
  let D := (List.range 5).map (fun x =>
    (C.getD ((x + 4) % 5) 0) ^^^ rotl64 (C.getD ((x + 1) % 5) 0) 1)
  (List.range 25).map (fun i => (A.getD i 0) ^^^ (D.getD (i % 5) 0))

/-- Keccak rotation offsets, indexed by `x + 5*y`. -/
def rhoOffsets : List Nat :=
  [0, 1, 62, 28, 27] ++ [36, 44, 6, 55, 20] ++ [3, 10, 43, 25, 39] ++
    [41, 45, 15, 21, 8] ++ [18, 2, 61, 56, 14]

/-- Keccak rho and pi steps combined. -/
def rhoPi (A : List Nat) : List Nat :=
  (List.range 25).map (fun i =>
    let X := i % 5
    let Y := i / 5
    let j := ((X + 3 * Y) % 5) + 5 * X
    rotl64 (A.getD j 0) (rhoOffsets.getD j 0))

/-- Keccak chi step. -/
def chi (B : List Nat) : List Nat :=
  (List.range 25).map (fun i =>
    let X := i % 5
    let Y := i / 5
    (B.getD i 0) ^^^
      (((B.getD ((X + 1) % 5 + 5 * Y) 0) ^^^ (2 ^ 64 - 1)) &&&
        (B.getD ((X + 2) % 5 + 5 * Y) 0)))

/-- Keccak round constants for the 24 rounds of Keccak-f[1600]. -/
def roundConstants : List Nat :=
  [1, 32898, 9223372036854808714, 9223372039002292224] ++
    [32907, 2147483649, 9223372039002292353, 9223372036854808585] ++
    [138, 136, 2147516425, 2147483658] ++
    [2147516555, 9223372036854775947, 9223372036854808713, 9223372036854808579] ++
    [9223372036854808578, 9223372036854775936, 32778, 9223372039002259466] ++
    [9223372039002292353, 9223372036854808704, 2147483649, 9223372039002292232]

/-- One Keccak round: theta, rho, pi, chi, iota. -/
def keccakRound (A : List Nat) (rc : Nat) : List Nat :=
  match chi (rhoPi (theta A)) with
  | [] => []
  | b :: t => (b ^^^ rc) :: t

/-- The full Keccak-f[1600] permutation. -/
def keccakP (A : List Nat) : List Nat := roundConstants.foldl keccakRound A

/-- Interpret up to eight bytes, little endian, as one 64-bit lane. -/
def bytesToLane (bs : List Nat) : Nat := bs.foldr (fun b acc => b + 256 * acc) 0

/-- Absorb one 136-byte rate block into the state and permute. -/
def absorbBlock (A : List Nat) (block : List Nat) : List Nat :=
  keccakP ((List.range 25).map (fun i =>
    (A.getD i 0) ^^^
      (if i < 17 then bytesToLane ((block.drop (8 * i)).take 8) else 0)))

/-- Absorb `k` rate blocks taken from the front of `bs`. -/
def absorbBlocks (A : List Nat) (bs : List Nat) : Nat → List Nat
  | 0 => A
  | k + 1 => absorbBlocks (absorbBlock A (bs.take 136)) (bs.drop 136) k

/-- SHA3 padding (domain byte 0x06, pad10*1) to a multiple of the 136-byte rate. -/
def sha3Pad (msg : List Nat) : List Nat :=
  let q := 136 - msg.length % 136
  if q = 1 then msg ++ [0x86]
  else msg ++ (0x06 :: List.replicate (q - 2) 0) ++ [0x80]

/-- Extract the eight little-endian bytes of a 64-bit lane. -/
def laneBytes (lane : Nat) : List Nat :=
  (List.range 8).map (fun i => (lane >>> (8 * i)) % 256)

/-- SHA3-256 of a byte sequence: absorb the padded message, squeeze 32 bytes. -/
def sha3_256 (msg : List Nat) : List Nat :=
  let padded := sha3Pad msg
  let A := absorbBlocks (List.replicate 25 0) padded (padded.length / 136)
  ((List.range 4).map (fun i => laneBytes (A.getD i 0))).flatten

/-! ## Lowercase hex encoding (the Rust `format!` with the lowercase hex flag) -/

/-- The lowercase hex digit for a nibble. -/
def hexDigit (n : Nat) : Char := Char.ofNat (if n < 10 then 48 + n else 87 + n)

/-- The two lowercase hex digits of one byte. -/
def byteHex (b : Nat) : List Char := [hexDigit (b / 16), hexDigit (b % 16)]

/-- Lowercase hex string of a byte sequence. -/
def bytesToHex (bs : List Nat) : String := String.mk ((bs.map byteHex).flatten)

/-! ## UTF-8 bytes of a string (the Rust `str::as_bytes`) -/

/-- The UTF-8 byte sequence of one character. -/
def utf8Bytes (c : Char) : List Nat :=
  let n := c.toNat
  if n < 0x80 then [n]
  else if n < 0x800 then [0xc0 + n / 64, 0x80 + n % 64]
  else if n < 0x10000 then
    [0xe0 + n / 4096, 0x80 + (n / 64) % 64, 0x80 + n % 64]
  else
    [0xf0 + n / 262144, 0x80 + (n / 4096) % 64, 0x80 + (n / 64) % 64,
     0x80 + n % 64]

/-- The UTF-8 byte sequence of a string. -/
def strBytes (s : String) : List Nat := (s.data.map utf8Bytes).flatten

/-! ## Key derivation (tracker.rs lines 119-131)

`create_smart_contract_hash` feeds the hasher three byte slices in
sequence; for a sponge digest that is the digest of their concatenation,
which is how the streaming API is embedded here. -/

/-- tracker.rs line 119: the 0x prefix followed by the lowercase hex of the digest of the block-hash bytes. -/
def create_block_hash (blockHash : List Nat) : String :=
  "0x" ++ bytesToHex (sha3_256 blockHash)

/-- tracker.rs lines 123-131: digest of name bytes, byte-code bytes and the
separator-free join of the argument strings, fed in exactly that order. -/
def create_smart_contract_hash (name byteCode : String) (args : List String) : String :=
  "0x" ++ bytesToHex (sha3_256
    (strBytes name ++ strBytes byteCode ++ strBytes (String.join args)))

/-! ## The TOML value tree and the toml_query store operations

The persisted document only ever holds tables and strings, so the value
tree is embedded with those two constructors.  Queries are embedded as the
list of dot-separated segments (the derived keys are hex strings, which
contain no dot, so the dot-joined query always splits back into exactly the
two segments). -/

inductive TomlValue : Type where
  | str : String → TomlValue
  | table : List (String × TomlValue) → TomlValue

/-- First-occurrence lookup in an association list. -/
def lookupAssoc {α : Type} : List (String × α) → String → Option α
  | [], _ => none
  | (k', v) :: t, k => if k = k' then some v else lookupAssoc t k

/-- Replace the first binding of `k`, or append one if `k` is unbound. -/
def setAssoc {α : Type} : List (String × α) → String → α → List (String × α)
  | [], k, v => [(k, v)]
  | (k', v') :: t, k, v =>
    if k = k' then (k, v) :: t else (k', v') :: setAssoc t k v

/-- toml_query read: absent if any path segment is missing; never fails. -/
def tomlRead : List String → TomlValue → Option TomlValue
  | [], v => some v
  | k :: p, TomlValue.table es =>
    match lookupAssoc es k with
    | some v => tomlRead p v
    | none => none
  | _ :: _, TomlValue.str _ => none

/-- toml_query insert: create the path, building intermediate tables as
needed; fail if the final segment already holds a value or an intermediate
segment is not a table. -/
def tomlInsert : List String → TomlValue → TomlValue → Except Unit TomlValue
  | [], _, _ => Except.error ()
  | [k], TomlValue.table es, v =>
    match lookupAssoc es k with
    | some _ => Except.error ()
    | none => Except.ok (TomlValue.table (es ++ [(k, v)]))
  | [_], TomlValue.str _, _ => Except.error ()
  | k :: k2 :: p, TomlValue.table es, v =>
    match lookupAssoc es k with
    | some (TomlValue.table es') =>
      (tomlInsert (k2 :: p) (TomlValue.table es') v).map
        (fun t => TomlValue.table (setAssoc es k t))
    | some (TomlValue.str _) => Except.error ()
    | none =>
      (tomlInsert (k2 :: p) (TomlValue.table []) v).map
        (fun t => TomlValue.table (es ++ [(k, t)]))
  | _ :: _ :: _, TomlValue.str _, _ => Except.error ()

/-- toml_query set: overwrite (or create) the final segment, but require
every intermediate segment to already exist as a table. -/
def tomlSet : List String → TomlValue → TomlValue → Except Unit TomlValue
  | [], _, _ => Except.error ()
  | [k], TomlValue.table es, v => Except.ok (TomlValue.table (setAssoc es k v))
  | [_], TomlValue.str _, _ => Except.error ()
  | k :: k2 :: p, TomlValue.table es, v =>
    match lookupAssoc es k with
    | some (TomlValue.table es') =>
      (tomlSet (k2 :: p) (TomlValue.table es') v).map
        (fun t => TomlValue.table (setAssoc es k t))
    | _ => Except.error ()
  | _ :: _ :: _, TomlValue.str _, _ => Except.error ()

/-! ## The typed tracking data (tracker.rs lines 21-28) -/

/-- 160-bit account addresses (the web3 `Address` type, an H160). -/
def AddressSize : Nat := 2 ^ 160

/-- tracker.rs lines 24-28: the stored record for one deployment. -/
structure SmartContractTrackingDataEntry where
  name : String
  address : Fin AddressSize
deriving DecidableEq

/-- tracker.rs line 21: chain bucket, contract key to record. -/
abbrev SmartContractTrackingData : Type :=
  List (String × SmartContractTrackingDataEntry)

/-- tracker.rs line 22: the whole document, chain key to bucket. -/
abbrev TrackingData : Type := List (String × SmartContractTrackingData)

/-! ## Serde conversions between typed data and the TOML tree -/

/-- The `w` low-order nibbles of `n` as hex characters, most significant first. -/
def hexChars : Nat → Nat → List Char
  | 0, _ => []
  | w + 1, n => hexChars w (n / 16) ++ [hexDigit (n % 16)]

/-- The value of one hex character (lowercase or uppercase). -/
def hexVal (c : Char) : Option Nat :=
  if 48 ≤ c.toNat ∧ c.toNat ≤ 57 then some (c.toNat - 48)
  else if 97 ≤ c.toNat ∧ c.toNat ≤ 102 then some (c.toNat - 87)
  else if 65 ≤ c.toNat ∧ c.toNat ≤ 70 then some (c.toNat - 55)
  else none

/-- Parse hex characters left to right onto an accumulator. -/
def parseHex : List Char → Nat → Option Nat
  | [], acc => some acc
  | c :: cs, acc =>
    match hexVal c with
    | some v => parseHex cs (acc * 16 + v)
    | none => none

/-- web3 `Address` serialization: `0x` followed by 40 lowercase hex digits. -/
def addressToHexString (a : Fin AddressSize) : String :=
  String.mk ('0' :: 'x' :: hexChars 40 a.val)

/-- web3 `Address` deserialization: `0x` followed by exactly 40 hex digits. -/
def parseAddressString (s : String) : Option (Fin AddressSize) :=
  match s.data with
  | '0' :: 'x' :: cs =>
    if cs.length = 40 then
      match parseHex cs 0 with
      | some v => if h : v < AddressSize then some ⟨v, h⟩ else none
      | none => none
    else none
  | _ => none

/-- Serde serialization (`toml::Value::try_from`) of one record: a table of its two fields. -/
def entryToToml (e : SmartContractTrackingDataEntry) : TomlValue :=
  TomlValue.table
    [("address", TomlValue.str (addressToHexString e.address)),
     ("name", TomlValue.str e.name)]

/-- Serde deserialization (`try_into`) of one record: both fields must be
present with the right shapes; extra fields are ignored (serde default). -/
def tomlToEntry : TomlValue → Option SmartContractTrackingDataEntry
  | TomlValue.table es =>
    match lookupAssoc es "name", lookupAssoc es "address" with
    | some (TomlValue.str n), some (TomlValue.str a) =>
      (parseAddressString a).map (fun addr => ⟨n, addr⟩)
    | _, _ => none
  | TomlValue.str _ => none

/-- Deserialize every value of a string-keyed table, failing if any fails. -/
def mapValues {α : Type} :
    List (String × TomlValue) → (TomlValue → Option α) → Option (List (String × α))
  | [], _ => some []
  | (k, v) :: t, f =>
    match f v with
    | some w =>
      match mapValues t f with
      | some ws => some ((k, w) :: ws)
      | none => none
    | none => none

/-- Serialize a chain bucket into a table of records. -/
def bucketToToml (b : SmartContractTrackingData) : TomlValue :=
  TomlValue.table (b.map (fun p => (p.1, entryToToml p.2)))

/-- Serialize the whole typed document into a table of buckets. -/
def trackingDataToToml (d : TrackingData) : TomlValue :=
  TomlValue.table (d.map (fun p => (p.1, bucketToToml p.2)))

/-- Serde deserialization (`try_into`) of a chain bucket: a table of records. -/
def tomlToBucket : TomlValue → Option SmartContractTrackingData
  | TomlValue.table es => mapValues es tomlToEntry
  | TomlValue.str _ => none

/-- The typed parse of the whole document, chain key to bucket to record. -/
def tomlToTrackingData : TomlValue → Option TrackingData
  | TomlValue.table es => mapValues es tomlToBucket
  | TomlValue.str _ => none

/-! ## Error taxonomy and file state -/

/-- Modelled from the spec: the deployment error taxonomy of section 7
(src/deployment/error.rs is not under src/): DatabaseNotFound, IOError,
FormatError/ParseError, SerializationError, InsertionError, plus the
catch-all the file write uses. -/
inductive DeploymentTrackingError where
  | databaseNotFound
  | ioError
  | parseError
  | serialization
  | insertion
  | other (message : String)
deriving DecidableEq

/-- The tracking-file state of the project: absent, present but failing the
typed parse (malformed text or wrong shape), or present with the given
parsed typed content. -/
inductive FileState where
  | absent
  | corrupt
  | present (data : TrackingData)
deriving DecidableEq

namespace DeploymentTracker

/-- tracker.rs lines 41-43: the backing file is present. -/
def database_exists : FileState → Bool
  | FileState.absent => false
  | FileState.corrupt => true
  | FileState.present _ => true

/-- tracker.rs lines 45-48: `fs::File::create` leaves an empty file, which
parses as the empty document. -/
def create_database (_st : FileState) : FileState := FileState.present []

/-- tracker.rs lines 104-111: fail with DatabaseNotFound when the file is
absent, parse the text into the typed shape (failing on malformed input),
and convert back into a generic TOML value. -/
def try_from_tracking_file : FileState → Except DeploymentTrackingError TomlValue
  | FileState.absent => Except.error DeploymentTrackingError.databaseNotFound
  | FileState.corrupt => Except.error DeploymentTrackingError.parseError
  | FileState.present d => Except.ok (trackingDataToToml d)

/-- tracker.rs lines 98-102: serialize the document and rewrite the whole
backing file; a later load re-parses what was written. -/
def write (doc : TomlValue) : Except DeploymentTrackingError FileState :=
  match tomlToTrackingData doc with
  | some d => Except.ok (FileState.present d)
  | none => Except.ok FileState.corrupt

/-- Which store mutation `track` performs. -/
inductive WriteOp where
  | insert
  | set
deriving DecidableEq

/-- tracker.rs lines 59-65: the probe reads only the one-segment chain-key
path (`tracking_data.read(&block_hash)`); insert when that is absent, set
when it is present. -/
def trackWriteOp (doc : TomlValue) (chainKey : String) : WriteOp :=
  match tomlRead [chainKey] doc with
  | none => WriteOp.insert
  | some _ => WriteOp.set

/-- Apply the chosen store mutation at the query path. -/
def applyWriteOp : WriteOp → List String → TomlValue → TomlValue → Except Unit TomlValue
  | WriteOp.insert, q, doc, v => tomlInsert q doc v
  | WriteOp.set, q, doc, v => tomlSet q doc v

/-- tracker.rs lines 50-68: derive both keys, load the document, probe,
insert or set the record at `chainKey.contractKey`, and rewrite the file.
Both mutation failures surface as the Insertion error. -/
def track (st : FileState) (blockHash : List Nat) (name byteCode : String)
    (args : List String) (address : Fin AddressSize) :
    Except DeploymentTrackingError FileState :=
  let chainKey := create_block_hash blockHash
  let contractKey := create_smart_contract_hash name byteCode args
  let query := [chainKey, contractKey]
  let entry : SmartContractTrackingDataEntry := ⟨name, address⟩
  match try_from_tracking_file st with
  | Except.error e => Except.error e
  | Except.ok doc =>
    match applyWriteOp (trackWriteOp doc chainKey) query doc (entryToToml entry) with
    | Except.error _ => Except.error DeploymentTrackingError.insertion
    | Except.ok doc2 => write doc2

/-- tracker.rs lines 70-81: derive both keys, load the document, read the
two-segment path, and deserialize the found value into a record. -/
def get_smart_contract_tracking_data (st : FileState) (blockHash : List Nat)
    (name byteCode : String) (args : List String) :
    Except DeploymentTrackingError (Option SmartContractTrackingDataEntry) :=
  let chainKey := create_block_hash blockHash
  let contractKey := create_smart_contract_hash name byteCode args
  match try_from_tracking_file st with
  | Except.error e => Except.error e
  | Except.ok doc =>
    match tomlRead [chainKey, contractKey] doc with
    | some v =>
      match tomlToEntry v with
      | some e => Except.ok (some e)
      | none => Except.error DeploymentTrackingError.serialization
    | none => Except.ok none

/-- tracker.rs lines 83-96: any load failure becomes `Ok(None)`
(`Err(_) => Ok(None)`); after a successful load, read the one-segment
chain path and deserialize the bucket. -/
def get_all_smart_contract_tracking_data (st : FileState) (blockHash : List Nat) :
    Except DeploymentTrackingError (Option SmartContractTrackingData) :=
  let chainKey := create_block_hash blockHash
  match try_from_tracking_file st with
  | Except.error _ => Except.ok none
  | Except.ok doc =>
    match tomlRead [chainKey] doc with
    | some v =>
      match tomlToBucket v with
      | some b => Except.ok (some b)
      | none => Except.error DeploymentTrackingError.serialization
    | none => Except.ok none

end DeploymentTracker

/-- Modelled from the spec: the write-operation choice as section 4.3
steps 3-4 describe it — probe the full two-segment chainKey.contractKey
path, insert when absent, set when present.  Stated for comparison with
the `trackWriteOp` of the source. -/
def trackWriteOpSpec (doc : TomlValue) (chainKey contractKey : String) :
    DeploymentTracker.WriteOp :=
  match tomlRead [chainKey, contractKey] doc with
  | none => DeploymentTracker.WriteOp.insert
  | some _ => DeploymentTracker.WriteOp.set

/-! ## Typed-level views used by the theorems -/

/-- The record stored for one (chain key, contract key) pair. -/
def recordAt (d : TrackingData) (ck sk : String) :
    Option SmartContractTrackingDataEntry :=
  match lookupAssoc d ck with
  | some b => lookupAssoc b sk
  | none => none

/-- The typed effect of one `track` call on the document. -/
def upsertTD (d : TrackingData) (ck sk : String)
    (e : SmartContractTrackingDataEntry) : TrackingData :=
  match lookupAssoc d ck with
  | none => d ++ [(ck, [(sk, e)])]
  | some b => setAssoc d ck (setAssoc b sk e)

/-- Well-formedness a document parsed from TOML hash maps always has:
no duplicate keys at either level. -/
def WFTrackingData (d : TrackingData) : Prop :=
  (d.map Prod.fst).Nodup ∧ ∀ p ∈ d, ((p.2.map Prod.fst).Nodup)

instance : DecidablePred WFTrackingData := fun d => by
  unfold WFTrackingData
  infer_instance

/-- Lowercase hex characters: the digits and the letters a to f. -/
def isLowerHexChar (c : Char) : Bool :=
  (48 ≤ c.toNat && c.toNat ≤ 57) || (97 ≤ c.toNat && c.toNat ≤ 102)

/-! ## The CLI error reporting layer (cli/src/error.rs) -/

/-- Modelled from the spec: CompilerError (vibranium::compiler::error is
not under src/) — the UnsupportedStrategy case, plus the remaining cases
carrying their own description text. -/
inductive CompilerError where
  | unsupportedStrategy
  | otherCase (text : String)
deriving DecidableEq

/-- The own description of the underlying error. -/
def CompilerError.description : CompilerError → String
  | CompilerError.unsupportedStrategy => "unsupported compiler strategy"
  | CompilerError.otherCase text => text

/-- Modelled from the spec: toml serialization errors carry a description,
which is also what their Display renders. -/
structure TomlSerError where
  text : String
deriving DecidableEq

/-- cli/src/error.rs lines 10-13. -/
inductive CliError where
  | compilationError (error : CompilerError)
  | configurationSetError (error : TomlSerError)
deriving DecidableEq

/-- cli/src/error.rs lines 18-29: the templated remediation text for the
unsupported-compiler case. -/
def unsupportedCompilerTemplate : String :=
  "No built-in support for requested compiler.\nTo use this compiler, please specify necessary OPTIONS in compile command. E.g:\n\n  vibranium compile --compiler solcjs -- <OPTIONS>...\n\nOPTIONS can also be specified in the project\x27s vibranium.toml file:\n\n  [compiler]\n    options = [\"--option1\", \"--option2\"]\n"

/-- cli/src/error.rs lines 16-35: `Error::description`. -/
def CliError.description : CliError → String
  | CliError.compilationError err =>
    match err with
    | CompilerError.unsupportedStrategy => unsupportedCompilerTemplate
    | _ => err.description
  | CliError.configurationSetError err => err.text

/-- The cause chain as data: which underlying error is wrapped. -/
inductive CliCause where
  | compiler (error : CompilerError)
  | configuration (error : TomlSerError)
deriving DecidableEq

/-- cli/src/error.rs lines 37-42: `Error::cause` returns the wrapped error. -/
def CliError.cause : CliError → Option CliCause
  | CliError.compilationError err => some (CliCause.compiler err)
  | CliError.configurationSetError err => some (CliCause.configuration err)

/-- cli/src/error.rs lines 46-53: the Display rendering. -/
def CliError.display : CliError → String
  | CliError.compilationError err =>
    CliError.description (CliError.compilationError err)
  | CliError.configurationSetError err =>
    "Couldn\x27t set configuration: " ++ err.text

/-! ## Association list lemmas -/

theorem lookupAssoc_map {α β : Type} (f : α → β) (l : List (String × α)) (k : String) :
    lookupAssoc (l.map (fun p => (p.1, f p.2))) k = (lookupAssoc l k).map f := by
  induction l with
  | nil => rfl
  | cons h t ih =>
    obtain ⟨k', v⟩ := h
    by_cases hk : k = k' <;> simp [lookupAssoc, hk, ih]

theorem setAssoc_map {α β : Type} (f : α → β) (l : List (String × α)) (k : String) (v : α) :
    setAssoc (l.map (fun p => (p.1, f p.2))) k (f v)
      = (setAssoc l k v).map (fun p => (p.1, f p.2)) := by
  induction l with
  | nil => rfl
  | cons h t ih =>
    obtain ⟨k', v'⟩ := h
    by_cases hk : k = k' <;> simp [setAssoc, hk, ih]

theorem lookupAssoc_append_of_none {α : Type} (l m : List (String × α)) (k : String)
    (h : lookupAssoc l k = none) : lookupAssoc (l ++ m) k = lookupAssoc m k := by
  induction l with
  | nil => rfl
  | cons p t ih =>
    obtain ⟨k', v⟩ := p
    by_cases hk : k = k' <;> simp_all [lookupAssoc]

theorem lookupAssoc_append_of_some {α : Type} (l m : List (String × α)) (k : String)
    (v : α) (h : lookupAssoc l k = some v) : lookupAssoc (l ++ m) k = some v := by
  induction l with
  | nil => simp [lookupAssoc] at h
  | cons p t ih =>
    obtain ⟨k', v'⟩ := p
    by_cases hk : k = k' <;> simp_all [lookupAssoc]

theorem lookup_setAssoc_self {α : Type} (l : List (String × α)) (k : String) (v : α) :
    lookupAssoc (setAssoc l k v) k = some v := by
  induction l with
  | nil => simp [setAssoc, lookupAssoc]
  | cons p t ih =>
    obtain ⟨k', v'⟩ := p
    by_cases hk : k = k' <;> simp [setAssoc, lookupAssoc, hk, ih]

theorem lookup_setAssoc_ne {α : Type} (l : List (String × α)) (k k' : String) (v : α)
    (h : k' ≠ k) : lookupAssoc (setAssoc l k v) k' = lookupAssoc l k' := by
  induction l with
  | nil => simp [setAssoc, lookupAssoc, h]
  | cons p t ih =>
    obtain ⟨k'', v'⟩ := p
    by_cases hk : k = k''
    · subst hk
      simp [setAssoc, lookupAssoc, h]
    · by_cases hk' : k' = k'' <;> simp [setAssoc, lookupAssoc, hk, hk', ih]

theorem lookupAssoc_eq_none_iff {α : Type} (l : List (String × α)) (k : String) :
    lookupAssoc l k = none ↔ k ∉ l.map Prod.fst := by
  induction l with
  | nil => simp [lookupAssoc]
  | cons p t ih =>
    obtain ⟨k', v⟩ := p
    by_cases hk : k = k' <;> simp [lookupAssoc, hk, ih]

theorem lookupAssoc_mem {α : Type} (l : List (String × α)) (k : String) (v : α)
    (h : lookupAssoc l k = some v) : (k, v) ∈ l := by
  induction l with
  | nil => simp [lookupAssoc] at h
  | cons p t ih =>
    obtain ⟨k', v'⟩ := p
    by_cases hk : k = k' <;> simp_all [lookupAssoc]

theorem mem_setAssoc {α : Type} (l : List (String × α)) (k : String) (v : α)
    (p : String × α) (h : p ∈ setAssoc l k v) : p ∈ l ∨ p = (k, v) := by
  induction l with
  | nil => simp [setAssoc] at h; simp [h]
  | cons q t ih =>
    obtain ⟨k', v'⟩ := q
    by_cases hk : k = k'
    · subst hk
      simp [setAssoc] at h
      rcases h with h | h
      · simp [h]
      · simp [h]
    · simp [setAssoc, hk] at h
      rcases h with h | h
      · simp [h]
      · rcases ih h with h' | h'
        · simp [h']
        · simp [h']

theorem mem_keys_setAssoc {α : Type} (l : List (String × α)) (k a : String) (v : α)
    (h : a ∈ (setAssoc l k v).map Prod.fst) : a ∈ l.map Prod.fst ∨ a = k := by
  simp only [List.mem_map] at h
  obtain ⟨p, hp, hpa⟩ := h
  rcases mem_setAssoc l k v p hp with h' | h'
  · exact Or.inl (hpa ▸ List.mem_map_of_mem Prod.fst h')
  · subst h'
    simp at hpa
    simp [hpa]

theorem keys_setAssoc_nodup {α : Type} (l : List (String × α)) (k : String) (v : α)
    (h : (l.map Prod.fst).Nodup) : ((setAssoc l k v).map Prod.fst).Nodup := by
  induction l with
  | nil => simp [setAssoc]
  | cons p t ih =>
    obtain ⟨k', v'⟩ := p
    simp only [List.map_cons, List.nodup_cons] at h
    by_cases hk : k = k'
    · subst hk
      simp [setAssoc, h.1, h.2]
    · simp only [setAssoc, hk, if_false, List.map_cons, List.nodup_cons]
      refine ⟨fun hmem => ?_, ih h.2⟩
      rcases mem_keys_setAssoc t k k' v hmem with h' | h'
      · exact h.1 h'
      · exact hk h'.symm

theorem keys_setAssoc_count {α : Type} (l : List (String × α)) (k : String) (v : α)
    (h : (l.map Prod.fst).Nodup) : ((setAssoc l k v).map Prod.fst).count k = 1 := by
  induction l with
  | nil => simp [setAssoc]
  | cons p t ih =>
    obtain ⟨k', v'⟩ := p
    simp only [List.map_cons, List.nodup_cons] at h
    by_cases hk : k = k'
    · subst hk
      have : k ∉ t.map Prod.fst := h.1
      simp [setAssoc, List.count_cons, List.count_eq_zero_of_not_mem this]
    · simp [setAssoc, hk, List.count_cons, ih h.2, Ne.symm hk]

/-! ## Hex encoding lemmas -/

theorem hexChars_length (w n : Nat) : (hexChars w n).length = w := by
  induction w generalizing n with
  | zero => rfl
  | succ w ih => simp [hexChars, ih]

theorem hexVal_hexDigit : ∀ m < 16, hexVal (hexDigit m) = some m := by decide

theorem parseHex_append (xs ys : List Char) (acc : Nat) :
    parseHex (xs ++ ys) acc
      = match parseHex xs acc with
        | some a => parseHex ys a
        | none => none := by
  induction xs generalizing acc with
  | nil => rfl
  | cons c cs ih =>
    simp only [List.cons_append, parseHex]
    cases hexVal c <;> simp [ih]

theorem parseHex_hexChars (w : Nat) : ∀ n acc,
    parseHex (hexChars w n) acc = some (acc * 16 ^ w + n % 16 ^ w) := by
  induction w with
  | zero => intro n acc; simp [hexChars, parseHex, Nat.mod_one]
  | succ w ih =>
    intro n acc
    rw [hexChars, parseHex_append, ih]
    have h16 : n % 16 < 16 := Nat.mod_lt _ (by norm_num)
    simp only [parseHex, hexVal_hexDigit _ h16]
    have hmod : n % 16 ^ (w + 1) = 16 * (n / 16 % 16 ^ w) + n % 16 := by
      rw [pow_succ, mul_comm (16 ^ w) 16, Nat.mod_mul]
      ring
    rw [hmod, pow_succ]
    ring_nf

theorem parseAddress_round (a : Fin AddressSize) :
    parseAddressString (addressToHexString a) = some a := by
  have hdata : (addressToHexString a).data = '0' :: 'x' :: hexChars 40 a.val := rfl
  rw [parseAddressString, hdata]
  simp only [hexChars_length, if_true, parseHex_hexChars 40 a.val 0]
  have h1640 : (16 : Nat) ^ 40 = AddressSize := by norm_num [AddressSize]
  have hv : 0 * 16 ^ 40 + a.val % 16 ^ 40 = a.val := by
    rw [h1640, Nat.mod_eq_of_lt a.isLt]
    ring
  simp only [hv]
  rw [dif_pos a.isLt]

/-! ## Serde round-trip lemmas -/

theorem tomlToEntry_entryToToml (e : SmartContractTrackingDataEntry) :
    tomlToEntry (entryToToml e) = some e := by
  show tomlToEntry (TomlValue.table _) = some e
  rw [tomlToEntry]
  have h1 : lookupAssoc
      [("address", TomlValue.str (addressToHexString e.address)),
       ("name", TomlValue.str e.name)] "name" = some (TomlValue.str e.name) := by
    simp [lookupAssoc]
  have h2 : lookupAssoc
      [("address", TomlValue.str (addressToHexString e.address)),
       ("name", TomlValue.str e.name)] "address"
        = some (TomlValue.str (addressToHexString e.address)) := by
    simp [lookupAssoc]
  rw [h1, h2]
  simp [parseAddress_round]

theorem mapValues_map {α : Type} (l : List (String × α)) (g : α → TomlValue)
    (f : TomlValue → Option α) (h : ∀ x, f (g x) = some x) :
    mapValues (l.map (fun p => (p.1, g p.2))) f = some l := by
  induction l with
  | nil => rfl
  | cons p t ih =>
    obtain ⟨k, v⟩ := p
    simp [mapValues, h, ih]

theorem tomlToBucket_round (b : SmartContractTrackingData) :
    tomlToBucket (bucketToToml b) = some b := by
  rw [bucketToToml, tomlToBucket]
  exact mapValues_map b entryToToml tomlToEntry tomlToEntry_entryToToml

theorem tomlToTrackingData_round (d : TrackingData) :
    tomlToTrackingData (trackingDataToToml d) = some d := by
  rw [trackingDataToToml, tomlToTrackingData]
  exact mapValues_map d bucketToToml tomlToBucket tomlToBucket_round


theorem tomlRead_td_one (d : TrackingData) (ck : String) :
    tomlRead [ck] (trackingDataToToml d) = (lookupAssoc d ck).map bucketToToml := by
  rw [trackingDataToToml]
  simp only [tomlRead, lookupAssoc_map]
  cases lookupAssoc d ck <;> simp [tomlRead]

theorem tomlRead_bucket (b : SmartContractTrackingData) (sk : String) :
    tomlRead [sk] (bucketToToml b) = (lookupAssoc b sk).map entryToToml := by
  rw [bucketToToml]
  simp only [tomlRead, lookupAssoc_map]
  cases lookupAssoc b sk <;> simp [tomlRead]

theorem tomlRead_td_two (d : TrackingData) (ck sk : String) :
    tomlRead [ck, sk] (trackingDataToToml d)
      = (recordAt d ck sk).map entryToToml := by
  rw [trackingDataToToml]
  simp only [tomlRead, lookupAssoc_map]
  cases h : lookupAssoc d ck with
  | none => simp [recordAt, h]
  | some b => simp [recordAt, h, tomlRead_bucket b sk]

theorem tomlInsert_td (d : TrackingData) (ck sk : String)
    (e : SmartContractTrackingDataEntry) (h : lookupAssoc d ck = none) :
    tomlInsert [ck, sk] (trackingDataToToml d) (entryToToml e)
      = Except.ok (trackingDataToToml (d ++ [(ck, [(sk, e)])])) := by
  rw [trackingDataToToml]
  simp only [tomlInsert, lookupAssoc_map, h, Option.map_none]
  simp only [lookupAssoc]
  simp [trackingDataToToml, bucketToToml, Except.map]

theorem tomlSet_td (d : TrackingData) (ck sk : String)
    (e : SmartContractTrackingDataEntry) (b : SmartContractTrackingData)
    (h : lookupAssoc d ck = some b) :
    tomlSet [ck, sk] (trackingDataToToml d) (entryToToml e)
      = Except.ok (trackingDataToToml (setAssoc d ck (setAssoc b sk e))) := by
  rw [trackingDataToToml]
  have hl : lookupAssoc (d.map (fun p => (p.1, bucketToToml p.2))) ck
      = some (TomlValue.table (b.map (fun p => (p.1, entryToToml p.2)))) := by
    rw [lookupAssoc_map, h]
    rfl
  simp only [tomlSet, hl]
  rw [setAssoc_map entryToToml b sk e]
  have hb : TomlValue.table ((setAssoc b sk e).map (fun p => (p.1, entryToToml p.2)))
      = bucketToToml (setAssoc b sk e) := rfl
  rw [hb]
  simp only [Except.map]
  rw [setAssoc_map bucketToToml d ck (setAssoc b sk e)]
  rfl

theorem lookup_upsert_eq (d : TrackingData) (ck sk : String)
    (e : SmartContractTrackingDataEntry) :
    lookupAssoc (upsertTD d ck sk e) ck
      = some (match lookupAssoc d ck with
              | none => [(sk, e)]
              | some b => setAssoc b sk e) := by
  rw [upsertTD]
  cases h : lookupAssoc d ck with
  | none =>
    rw [lookupAssoc_append_of_none d _ ck h]
    simp [lookupAssoc]
  | some b => exact lookup_setAssoc_self d ck (setAssoc b sk e)

theorem recordAt_upsert_self (d : TrackingData) (ck sk : String)
    (e : SmartContractTrackingDataEntry) :
    recordAt (upsertTD d ck sk e) ck sk = some e := by
  rw [recordAt, lookup_upsert_eq]
  cases h : lookupAssoc d ck with
  | none => simp [lookupAssoc]
  | some b => simp [lookup_setAssoc_self]

theorem recordAt_upsert_other (d : TrackingData) (ck sk ck' sk' : String)
    (e : SmartContractTrackingDataEntry) (h : ck' ≠ ck ∨ sk' ≠ sk) :
    recordAt (upsertTD d ck sk e) ck' sk' = recordAt d ck' sk' := by
  rw [upsertTD]
  by_cases hck : ck' = ck
  · subst hck
    have hsk : sk' ≠ sk := h.resolve_left (fun hc => hc rfl)
    cases hd : lookupAssoc d ck' with
    | none =>
      rw [recordAt, lookupAssoc_append_of_none d _ ck' hd]
      simp only [lookupAssoc, if_pos rfl]
      simp [recordAt, hd, lookupAssoc, hsk]
    | some b =>
      rw [recordAt, lookup_setAssoc_self]
      show lookupAssoc (setAssoc b sk e) sk' = recordAt d ck' sk'
      rw [lookup_setAssoc_ne b sk sk' e hsk]
      simp [recordAt, hd]
  · cases hd : lookupAssoc d ck with
    | none =>
      rw [recordAt]
      cases hd' : lookupAssoc d ck' with
      | none =>
        rw [lookupAssoc_append_of_none d _ ck' hd']
        simp [lookupAssoc, hck, recordAt, hd']
      | some b' =>
        rw [lookupAssoc_append_of_some d _ ck' b' hd']
        simp [recordAt, hd']
    | some b =>
      rw [recordAt, lookup_setAssoc_ne d ck ck' _ hck]
      rw [recordAt]

/-! ## The tracker operations characterized at the typed level -/

theorem track_present (d : TrackingData) (bh : List Nat) (n bc : String)
    (args : List String) (a : Fin AddressSize) :
    DeploymentTracker.track (FileState.present d) bh n bc args a
      = Except.ok (FileState.present
          (upsertTD d (create_block_hash bh)
            (create_smart_contract_hash n bc args) ⟨n, a⟩)) := by
  rw [DeploymentTracker.track]
  simp only [DeploymentTracker.try_from_tracking_file]
  simp only [DeploymentTracker.trackWriteOp, tomlRead_td_one]
  cases h : lookupAssoc d (create_block_hash bh) with
  | none =>
    show (match tomlInsert [create_block_hash bh, create_smart_contract_hash n bc args]
        (trackingDataToToml d) (entryToToml ⟨n, a⟩) with
      | Except.error _ => Except.error DeploymentTrackingError.insertion
      | Except.ok doc2 => DeploymentTracker.write doc2) = _
    rw [tomlInsert_td d _ _ _ h]
    simp only [DeploymentTracker.write, tomlToTrackingData_round]
    rw [upsertTD, h]
  | some b =>
    show (match tomlSet [create_block_hash bh, create_smart_contract_hash n bc args]
        (trackingDataToToml d) (entryToToml ⟨n, a⟩) with
      | Except.error _ => Except.error DeploymentTrackingError.insertion
      | Except.ok doc2 => DeploymentTracker.write doc2) = _
    rw [tomlSet_td d _ _ _ b h]
    simp only [DeploymentTracker.write, tomlToTrackingData_round]
    rw [upsertTD, h]

theorem get_present (d : TrackingData) (bh : List Nat) (n bc : String)
    (args : List String) :
    DeploymentTracker.get_smart_contract_tracking_data (FileState.present d) bh n bc args
      = Except.ok (recordAt d (create_block_hash bh)
          (create_smart_contract_hash n bc args)) := by
  rw [DeploymentTracker.get_smart_contract_tracking_data]
  simp only [DeploymentTracker.try_from_tracking_file, tomlRead_td_two]
  cases h : recordAt d (create_block_hash bh) (create_smart_contract_hash n bc args) with
  | none => simp
  | some e => simp [tomlToEntry_entryToToml]

theorem get_all_present (d : TrackingData) (bh : List Nat) :
    DeploymentTracker.get_all_smart_contract_tracking_data (FileState.present d) bh
      = Except.ok (lookupAssoc d (create_block_hash bh)) := by
  rw [DeploymentTracker.get_all_smart_contract_tracking_data]
  simp only [DeploymentTracker.try_from_tracking_file, tomlRead_td_one]
  cases h : lookupAssoc d (create_block_hash bh) with
  | none => simp
  | some b => simp [tomlToBucket_round]

/-! ## Well-formedness and counting lemmas -/

theorem WF_upsert (d : TrackingData) (ck sk : String)
    (e : SmartContractTrackingDataEntry) (h : WFTrackingData d) :
    WFTrackingData (upsertTD d ck sk e) := by
  obtain ⟨hkeys, hbuckets⟩ := h
  rw [upsertTD]
  cases hd : lookupAssoc d ck with
  | none =>
    constructor
    · rw [List.map_append]
      simp only [List.map_cons, List.map_nil]
      rw [List.nodup_append]
      refine ⟨hkeys, by simp, ?_⟩
      rw [List.disjoint_singleton]
      exact (lookupAssoc_eq_none_iff d ck).mp hd
    · intro p hp
      rcases List.mem_append.mp hp with h' | h'
      · exact hbuckets p h'
      · simp at h'
        subst h'
        simp
  | some b =>
    constructor
    · exact keys_setAssoc_nodup d ck (setAssoc b sk e) hkeys
    · intro p hp
      rcases mem_setAssoc d ck _ p hp with h' | h'
      · exact hbuckets p h'
      · subst h'
        exact keys_setAssoc_nodup b sk e (hbuckets (ck, b) (lookupAssoc_mem d ck b hd))

theorem bucket_nodup_upsert (d : TrackingData) (ck sk : String)
    (e : SmartContractTrackingDataEntry) (b : SmartContractTrackingData)
    (h : WFTrackingData d) (hb : lookupAssoc (upsertTD d ck sk e) ck = some b) :
    (b.map Prod.fst).Nodup :=
  (WF_upsert d ck sk e h).2 (ck, b) (lookupAssoc_mem _ ck b hb)

/-! ## Digest output shape -/

theorem sha3_mem_lt (msg : List Nat) : ∀ b ∈ sha3_256 msg, b < 256 := by
  intro b hb
  rw [sha3_256] at hb
  simp only [List.mem_flatten, List.mem_map] at hb
  obtain ⟨l, ⟨i, _, hl⟩, hbl⟩ := hb
  rw [← hl, laneBytes] at hbl
  simp only [List.mem_map] at hbl
  obtain ⟨j, _, hj⟩ := hbl
  rw [← hj]
  exact Nat.mod_lt _ (by norm_num)

theorem laneBytes_length (lane : Nat) : (laneBytes lane).length = 8 := by
  simp [laneBytes]

theorem sha3_length (msg : List Nat) : (sha3_256 msg).length = 32 := by
  rw [sha3_256, List.length_flatten, List.map_map]
  simp only [Function.comp, laneBytes_length]
  rfl

theorem bytesToHex_length (bs : List Nat) : (bytesToHex bs).length = 2 * bs.length := by
  rw [bytesToHex]
  show ((bs.map byteHex).flatten).length = 2 * bs.length
  induction bs with
  | nil => rfl
  | cons b t ih => simp [byteHex, ih]; ring

theorem create_block_hash_length (bh : List Nat) :
    (create_block_hash bh).length = 66 := by
  rw [create_block_hash, String.length_append, bytesToHex_length, sha3_length]
  decide

theorem create_smart_contract_hash_length (n bc : String) (args : List String) :
    (create_smart_contract_hash n bc args).length = 66 := by
  rw [create_smart_contract_hash, String.length_append, bytesToHex_length, sha3_length]
  decide

/-! ## Lowercase hex output -/

theorem hexDigit_lower : ∀ m < 16, isLowerHexChar (hexDigit m) = true := by decide

theorem bytesToHex_lower (bs : List Nat) (h : ∀ b ∈ bs, b < 256) :
    (bytesToHex bs).data.all isLowerHexChar = true := by
  rw [bytesToHex]
  show ((bs.map byteHex).flatten).all isLowerHexChar = true
  rw [List.all_eq_true]
  intro c hc
  simp only [List.mem_flatten, List.mem_map] at hc
  obtain ⟨l, ⟨b, hb, hl⟩, hcl⟩ := hc
  rw [← hl, byteHex] at hcl
  have hblt := h b hb
  have h1 : b / 16 < 16 := by omega
  have h2 : b % 16 < 16 := Nat.mod_lt _ (by norm_num)
  rcases List.mem_cons.mp hcl with hc1 | hcl2
  · rw [hc1]
    exact hexDigit_lower _ h1
  · rcases List.mem_cons.mp hcl2 with hc2 | hc3
    · rw [hc2]
      exact hexDigit_lower _ h2
    · simp at hc3

theorem bucket_after_upsert (d : TrackingData) (ck sk : String)
    (e : SmartContractTrackingDataEntry) (h : WFTrackingData d) :
    ∃ b1, lookupAssoc (upsertTD d ck sk e) ck = some b1
      ∧ (b1.map Prod.fst).Nodup := by
  cases hld : lookupAssoc d ck with
  | none => exact ⟨[(sk, e)], by rw [lookup_upsert_eq, hld], by simp⟩
  | some b =>
    exact ⟨setAssoc b sk e, by rw [lookup_upsert_eq, hld],
      keys_setAssoc_nodup b sk e (h.2 (ck, b) (lookupAssoc_mem d ck b hld))⟩

/-! ## The claims -/

/-- C1: for every blockHash, name, byteCode, args and address, after the
database has been created, `track` followed by `get_smart_contract_tracking_data`
with the same identifying arguments returns Some of a record equal to
the tracked name and address. -/
theorem track_then_get_round_trip (st : FileState) (bh : List Nat) (n bc : String)
    (args : List String) (a : Fin AddressSize) :
    ∃ st', DeploymentTracker.track (DeploymentTracker.create_database st) bh n bc args a
        = Except.ok st'
      ∧ DeploymentTracker.get_smart_contract_tracking_data st' bh n bc args
          = Except.ok (some ⟨n, a⟩) := by
  refine ⟨_, track_present [] bh n bc args a, ?_⟩
  rw [get_present, recordAt_upsert_self]

/-- C2 counterexample: a document whose chain bucket exists but holds no
entry for the derived contract key.  The full two-segment path is absent,
so the claimed probe would choose insert, yet the probe of track (which reads
only the chain key) chooses set. -/
theorem track_probe_counterexample :
    tomlRead [create_block_hash [0], create_smart_contract_hash "Token" "0x6001" []]
        (trackingDataToToml [(create_block_hash [0], [])]) = none
    ∧ DeploymentTracker.trackWriteOp
        (trackingDataToToml [(create_block_hash [0], [])]) (create_block_hash [0])
        = DeploymentTracker.WriteOp.set
    ∧ trackWriteOpSpec (trackingDataToToml [(create_block_hash [0], [])])
        (create_block_hash [0]) (create_smart_contract_hash "Token" "0x6001" [])
        = DeploymentTracker.WriteOp.insert := by
  have h1 : lookupAssoc [(create_block_hash [0], ([] : SmartContractTrackingData))]
      (create_block_hash [0]) = some [] := by
    simp [lookupAssoc]
  have hr : tomlRead [create_block_hash [0], create_smart_contract_hash "Token" "0x6001" []]
      (trackingDataToToml [(create_block_hash [0], [])]) = none := by
    rw [tomlRead_td_two]
    simp [recordAt, h1, lookupAssoc]
  refine ⟨hr, ?_, ?_⟩
  · rw [DeploymentTracker.trackWriteOp, tomlRead_td_one, h1]
    rfl
  · rw [trackWriteOpSpec, hr]

/-- C2 as amended: the probe track performs reads only the one-segment
chain-key path; insert is chosen exactly when the chain bucket is absent
and set exactly when it is present. -/
theorem track_probe_chain_key_only (doc : TomlValue) (ck : String) :
    (DeploymentTracker.trackWriteOp doc ck = DeploymentTracker.WriteOp.insert
      ↔ tomlRead [ck] doc = none)
    ∧ (DeploymentTracker.trackWriteOp doc ck = DeploymentTracker.WriteOp.set
      ↔ (tomlRead [ck] doc).isSome = true) := by
  rw [DeploymentTracker.trackWriteOp]
  cases tomlRead [ck] doc <;> simp

/-- C3: with the backing file absent, get-all returns Ok none while both
get-record and track fail with DatabaseNotFound. -/
theorem absent_database_distinction (bh : List Nat) (n bc : String)
    (args : List String) (a : Fin AddressSize) :
    DeploymentTracker.get_all_smart_contract_tracking_data FileState.absent bh
        = Except.ok none
    ∧ DeploymentTracker.get_smart_contract_tracking_data FileState.absent bh n bc args
        = Except.error DeploymentTrackingError.databaseNotFound
    ∧ DeploymentTracker.track FileState.absent bh n bc args a
        = Except.error DeploymentTrackingError.databaseNotFound :=
  ⟨rfl, rfl, rfl⟩

/-- C4 counterexample: with the backing file present but malformed,
get-all returns Ok none rather than the parse error. -/
theorem get_all_swallows_parse_error :
    DeploymentTracker.get_all_smart_contract_tracking_data FileState.corrupt []
        = Except.ok none
    ∧ DeploymentTracker.get_all_smart_contract_tracking_data FileState.corrupt []
        ≠ Except.error DeploymentTrackingError.parseError :=
  ⟨rfl, fun h => Except.noConfusion h⟩

/-- C4 as amended: get-all maps every load failure — DatabaseNotFound and
parse errors alike — to Ok none, while get-record and track propagate the
same load error unchanged. -/
theorem load_error_propagation (st : FileState) (bh : List Nat) (n bc : String)
    (args : List String) (a : Fin AddressSize) (e : DeploymentTrackingError)
    (h : DeploymentTracker.try_from_tracking_file st = Except.error e) :
    DeploymentTracker.get_all_smart_contract_tracking_data st bh = Except.ok none
    ∧ DeploymentTracker.get_smart_contract_tracking_data st bh n bc args
        = Except.error e
    ∧ DeploymentTracker.track st bh n bc args a = Except.error e := by
  cases st with
  | absent =>
    simp only [DeploymentTracker.try_from_tracking_file, Except.error.injEq] at h
    subst h
    exact ⟨rfl, rfl, rfl⟩
  | corrupt =>
    simp only [DeploymentTracker.try_from_tracking_file, Except.error.injEq] at h
    subst h
    exact ⟨rfl, rfl, rfl⟩
  | present d => simp [DeploymentTracker.try_from_tracking_file] at h

theorem load_error_propagation_witness :
    DeploymentTracker.get_all_smart_contract_tracking_data FileState.corrupt [1]
        = Except.ok none
    ∧ DeploymentTracker.get_smart_contract_tracking_data FileState.corrupt [1] "T" "B" []
        = Except.error DeploymentTrackingError.parseError
    ∧ DeploymentTracker.track FileState.corrupt [1] "T" "B" []
        ⟨0, by norm_num [AddressSize]⟩
        = Except.error DeploymentTrackingError.parseError :=
  load_error_propagation FileState.corrupt [1] "T" "B" []
    ⟨0, by norm_num [AddressSize]⟩ DeploymentTrackingError.parseError rfl

/-- C5: the chain key is 0x followed by the lowercase hex digest of the
block hash bytes; the contract key is 0x followed by the lowercase hex
digest of name bytes, byte-code bytes and the separator-free concatenation
of the argument strings, in that order; both derivations are pure and
deterministic. -/
theorem hash_key_derivation_spec (bh : List Nat) (n bc : String) (args : List String) :
    create_block_hash bh = "0x" ++ bytesToHex (sha3_256 bh)
    ∧ create_smart_contract_hash n bc args
        = "0x" ++ bytesToHex (sha3_256
            (strBytes n ++ strBytes bc ++ strBytes (String.join args)))
    ∧ (bytesToHex (sha3_256 bh)).data.all isLowerHexChar = true
    ∧ (bytesToHex (sha3_256
        (strBytes n ++ strBytes bc ++ strBytes (String.join args)))).data.all
          isLowerHexChar = true
    ∧ (∀ bh2, bh = bh2 → create_block_hash bh = create_block_hash bh2)
    ∧ (∀ n2 bc2 args2, n = n2 → bc = bc2 → args = args2 →
        create_smart_contract_hash n bc args
          = create_smart_contract_hash n2 bc2 args2) := by
  refine ⟨rfl, rfl, bytesToHex_lower _ (sha3_mem_lt _),
    bytesToHex_lower _ (sha3_mem_lt _), ?_, ?_⟩
  · intro bh2 h
    rw [h]
  · intro n2 bc2 args2 h1 h2 h3
    rw [h1, h2, h3]

theorem hash_key_derivation_spec_witness :
    create_block_hash [0] = "0x" ++ bytesToHex (sha3_256 [0])
    ∧ create_block_hash [0] = create_block_hash [0] :=
  ⟨(hash_key_derivation_spec [0] "" "" []).1,
   (hash_key_derivation_spec [0] "" "" []).2.2.2.2.1 [0] rfl⟩

/-- C6: argument lists with equal separator-free concatenations collide. -/
theorem contract_key_join_collision (n bc : String) (args1 args2 : List String)
    (h : String.join args1 = String.join args2) :
    create_smart_contract_hash n bc args1 = create_smart_contract_hash n bc args2 := by
  rw [create_smart_contract_hash, create_smart_contract_hash, h]

theorem contract_key_join_collision_witness :
    create_smart_contract_hash "Token" "0x6001" ["ab", "c"]
      = create_smart_contract_hash "Token" "0x6001" ["a", "bc"] :=
  contract_key_join_collision "Token" "0x6001" ["ab", "c"] ["a", "bc"] rfl

/-- C7: tracking the same identifying arguments twice with different
addresses overwrites: the second get returns the second address, never the
first, and the chain bucket holds exactly one entry for the pair. -/
theorem track_overwrite_second_address (d : TrackingData) (bh : List Nat)
    (n bc : String) (args : List String) (a1 a2 : Fin AddressSize)
    (hwf : WFTrackingData d) :
    ∃ st1 d2 b,
      DeploymentTracker.track (FileState.present d) bh n bc args a1 = Except.ok st1
      ∧ DeploymentTracker.track st1 bh n bc args a2
          = Except.ok (FileState.present d2)
      ∧ DeploymentTracker.get_smart_contract_tracking_data
          (FileState.present d2) bh n bc args = Except.ok (some ⟨n, a2⟩)
      ∧ (a1 ≠ a2 →
          DeploymentTracker.get_smart_contract_tracking_data
            (FileState.present d2) bh n bc args ≠ Except.ok (some ⟨n, a1⟩))
      ∧ lookupAssoc d2 (create_block_hash bh) = some b
      ∧ (b.map Prod.fst).count (create_smart_contract_hash n bc args) = 1 := by
  obtain ⟨b1, hl1, hb1⟩ :=
    bucket_after_upsert d (create_block_hash bh)
      (create_smart_contract_hash n bc args) ⟨n, a1⟩ hwf
  have hl2 : lookupAssoc
      (upsertTD (upsertTD d (create_block_hash bh)
          (create_smart_contract_hash n bc args) ⟨n, a1⟩)
        (create_block_hash bh) (create_smart_contract_hash n bc args) ⟨n, a2⟩)
      (create_block_hash bh)
      = some (setAssoc b1 (create_smart_contract_hash n bc args) ⟨n, a2⟩) := by
    rw [lookup_upsert_eq, hl1]
  refine ⟨_, _, setAssoc b1 (create_smart_contract_hash n bc args) ⟨n, a2⟩,
    track_present d bh n bc args a1, track_present _ bh n bc args a2, ?_, ?_,
    hl2, keys_setAssoc_count b1 _ _ hb1⟩
  · rw [get_present, recordAt_upsert_self]
  · intro hne heq
    rw [get_present, recordAt_upsert_self] at heq
    have h2 : (⟨n, a2⟩ : SmartContractTrackingDataEntry) = ⟨n, a1⟩ := by
      have := heq
      simp only [Except.ok.injEq, Option.some.injEq] at this
      exact this
    have : a2 = a1 := by
      injection h2
    exact hne this.symm

theorem track_overwrite_second_address_witness :
    ∃ st1 d2 b,
      DeploymentTracker.track (FileState.present []) [0] "Token" "0x6001" []
          ⟨1, by norm_num [AddressSize]⟩ = Except.ok st1
      ∧ DeploymentTracker.track st1 [0] "Token" "0x6001" []
          ⟨2, by norm_num [AddressSize]⟩ = Except.ok (FileState.present d2)
      ∧ DeploymentTracker.get_smart_contract_tracking_data
          (FileState.present d2) [0] "Token" "0x6001" []
          = Except.ok (some ⟨"Token", ⟨2, by norm_num [AddressSize]⟩⟩)
      ∧ ((⟨1, by norm_num [AddressSize]⟩ : Fin AddressSize)
            ≠ ⟨2, by norm_num [AddressSize]⟩ →
          DeploymentTracker.get_smart_contract_tracking_data
            (FileState.present d2) [0] "Token" "0x6001" []
            ≠ Except.ok (some ⟨"Token", ⟨1, by norm_num [AddressSize]⟩⟩))
      ∧ lookupAssoc d2 (create_block_hash [0]) = some b
      ∧ (b.map Prod.fst).count (create_smart_contract_hash "Token" "0x6001" []) = 1 :=
  track_overwrite_second_address [] [0] "Token" "0x6001" []
    ⟨1, by norm_num [AddressSize]⟩ ⟨2, by norm_num [AddressSize]⟩ (by decide)

/-- C8: the CLI reporter preserves the wrapped cause, renders the
templated remediation text for the unsupported-compiler case, the
underlying description for every other compilation case, and the prefixed
underlying description for configuration-serialization failures. -/
theorem cli_error_reporting_contract (e : CliError) :
    (match e with
     | CliError.compilationError c => CliError.cause e = some (CliCause.compiler c)
     | CliError.configurationSetError t =>
         CliError.cause e = some (CliCause.configuration t))
    ∧ (match e with
     | CliError.compilationError CompilerError.unsupportedStrategy =>
         CliError.display e = unsupportedCompilerTemplate
         ∧ CliError.description e = unsupportedCompilerTemplate
     | CliError.compilationError (CompilerError.otherCase d) =>
         CliError.display e = d ∧ CliError.description e = d
     | CliError.configurationSetError t =>
         CliError.display e = "Couldn\x27t set configuration: " ++ t.text) := by
  cases e with
  | compilationError c =>
    cases c with
    | unsupportedStrategy => exact ⟨rfl, rfl, rfl⟩
    | otherCase d => exact ⟨rfl, rfl, rfl⟩
  | configurationSetError t => exact ⟨rfl, rfl⟩

/-- C9: a successful track never deletes or alters any other entry; every
pair other than the tracked one keeps its prior record, and the tracked
pair afterwards holds the new record. -/
theorem track_frame_preservation (d : TrackingData) (bh : List Nat) (n bc : String)
    (args : List String) (a : Fin AddressSize) (ck' sk' : String)
    (h : ck' ≠ create_block_hash bh ∨ sk' ≠ create_smart_contract_hash n bc args) :
    ∃ d', DeploymentTracker.track (FileState.present d) bh n bc args a
        = Except.ok (FileState.present d')
      ∧ recordAt d' ck' sk' = recordAt d ck' sk'
      ∧ recordAt d' (create_block_hash bh) (create_smart_contract_hash n bc args)
          = some ⟨n, a⟩ :=
  ⟨_, track_present d bh n bc args a,
   recordAt_upsert_other d _ _ ck' sk' _ h,
   recordAt_upsert_self d _ _ _⟩

theorem track_frame_preservation_witness :
    ∃ d', DeploymentTracker.track (FileState.present []) [2] "T" "B" []
        ⟨3, by norm_num [AddressSize]⟩ = Except.ok (FileState.present d')
      ∧ recordAt d' "k" "q" = recordAt [] "k" "q"
      ∧ recordAt d' (create_block_hash [2]) (create_smart_contract_hash "T" "B" [])
          = some ⟨"T", ⟨3, by norm_num [AddressSize]⟩⟩ :=
  track_frame_preservation [] [2] "T" "B" [] ⟨3, by norm_num [AddressSize]⟩ "k" "q"
    (Or.inl (fun hc => absurd (congrArg String.length hc)
      (by rw [create_block_hash_length]; decide)))

/-- C10: whenever loading the document succeeds, every value readable at a
two-segment path deserializes into a record, so get-record can never
surface the SerializationError branch. -/
theorem load_implies_entry_deserializable (st : FileState) (doc : TomlValue)
    (h : DeploymentTracker.try_from_tracking_file st = Except.ok doc) :
    (∀ ck sk v, tomlRead [ck, sk] doc = some v → (tomlToEntry v).isSome = true)
    ∧ (∀ bh n bc args,
        DeploymentTracker.get_smart_contract_tracking_data st bh n bc args
          ≠ Except.error DeploymentTrackingError.serialization) := by
  cases st with
  | absent => simp [DeploymentTracker.try_from_tracking_file] at h
  | corrupt => simp [DeploymentTracker.try_from_tracking_file] at h
  | present d =>
    have hdoc : doc = trackingDataToToml d := by
      simp only [DeploymentTracker.try_from_tracking_file, Except.ok.injEq] at h
      exact h.symm
    subst hdoc
    constructor
    · intro ck sk v hv
      rw [tomlRead_td_two] at hv
      cases hrec : recordAt d ck sk with
      | none =>
        rw [hrec] at hv
        simp at hv
      | some e =>
        rw [hrec] at hv
        have hv' : entryToToml e = v := by simpa using hv
        rw [← hv', tomlToEntry_entryToToml]
        rfl
    · intro bh n bc args
      rw [get_present]
      intro hc
      exact Except.noConfusion hc

theorem load_implies_entry_deserializable_witness :
    (∀ ck sk v, tomlRead [ck, sk] (trackingDataToToml []) = some v
        → (tomlToEntry v).isSome = true)
    ∧ (∀ bh n bc args,
        DeploymentTracker.get_smart_contract_tracking_data
            (FileState.present []) bh n bc args
          ≠ Except.error DeploymentTrackingError.serialization) :=
  load_implies_entry_deserializable (FileState.present []) (trackingDataToToml []) rfl
